import Mathlib

/-!
Formal model of the numeric core of the `fine` financial-analysis
application: the technical-indicator engine (`services/analysis_service.py`),
the recommendation scorer (`services/ai_advisor.py`) and the risk metrics and
portfolio aggregation (`services/risk_service.py`).

Price series are modelled as lists of exact rationals (`List ℚ`).  Python
float semantics that matter to the claims are modelled exactly:

* `round(x, n)` is round-half-to-even at `n` decimal digits (`roundTo`);
* division of rolling gain by rolling loss in the RSI can produce IEEE
  infinities and NaN, modelled by the `ERat` type;
* square roots (standard deviations, `sqrt 252`) are modelled in `ℝ`.

Fallible operations (`{'error': ...}` returns in the Python code) are
modelled with `Option`.
-/

namespace Fine

/-! ## Round-half-to-even, the semantics of Python `round` -/

/-- Round a rational to the nearest integer, ties to even
(the behaviour of Python's builtin `round`). -/
def rhe (q : ℚ) : ℤ :=
  if q + 1/2 = ((⌊q + 1/2⌋ : ℤ) : ℚ) ∧ ⌊q + 1/2⌋ % 2 ≠ 0 then ⌊q + 1/2⌋ - 1
  else ⌊q + 1/2⌋

/-- Python `round(q, d)`: round to `d` decimal digits, ties to even. -/
def roundTo (d : ℕ) (q : ℚ) : ℚ := (rhe (q * 10 ^ d) : ℚ) / 10 ^ d

theorem rhe_eq_of_not_tie (q : ℚ) (n : ℤ) (h1 : (n : ℚ) ≤ q + 1/2)
    (h2 : q + 1/2 < (n : ℚ) + 1) (h3 : q + 1/2 ≠ (n : ℚ)) : rhe q = n := by
  have hf : ⌊q + 1/2⌋ = n := Int.floor_eq_iff.mpr ⟨h1, by push_cast at h2 ⊢; linarith⟩
  unfold rhe
  rw [hf, if_neg]
  rintro ⟨ht, -⟩
  exact h3 ht

theorem rhe_intCast (n : ℤ) : rhe (n : ℚ) = n := by
  have hf : ⌊(n : ℚ) + 1/2⌋ = n :=
    Int.floor_eq_iff.mpr ⟨by linarith, by push_cast; linarith⟩
  unfold rhe
  rw [hf, if_neg]
  rintro ⟨ht, -⟩
  have h0 : ((n : ℚ)) + 1/2 - (n : ℚ) = 0 := by rw [ht]; ring
  norm_num at h0

theorem rhe_mono {a b : ℚ} (hab : a ≤ b) : rhe a ≤ rhe b := by
  have hf : ⌊a + 1/2⌋ ≤ ⌊b + 1/2⌋ := Int.floor_le_floor (by linarith)
  by_cases heq : ⌊a + 1/2⌋ = ⌊b + 1/2⌋
  · unfold rhe
    split_ifs with h1 h2 h2
    · omega
    · omega
    · -- a is not an odd tie but b is: then a + 1/2 is the same integer, contradiction
      exfalso
      obtain ⟨hbt, hbo⟩ := h2
      apply h1
      refine ⟨?_, by omega⟩
      have hle : ((⌊a + 1/2⌋ : ℤ) : ℚ) ≤ a + 1/2 := Int.floor_le _
      have hge : a + 1/2 ≤ ((⌊a + 1/2⌋ : ℤ) : ℚ) := by
        calc a + 1/2 ≤ b + 1/2 := by linarith
        _ = ((⌊b + 1/2⌋ : ℤ) : ℚ) := hbt
        _ = ((⌊a + 1/2⌋ : ℤ) : ℚ) := by rw [heq]
      exact le_antisymm hge hle
    · omega
  · have hlt : ⌊a + 1/2⌋ < ⌊b + 1/2⌋ := lt_of_le_of_ne hf heq
    have h1 : rhe a ≤ ⌊a + 1/2⌋ := by unfold rhe; split_ifs <;> omega
    have h2 : ⌊b + 1/2⌋ - 1 ≤ rhe b := by unfold rhe; split_ifs <;> omega
    omega

theorem roundTo_mono (d : ℕ) {a b : ℚ} (hab : a ≤ b) : roundTo d a ≤ roundTo d b := by
  unfold roundTo
  have hp : (0 : ℚ) < 10 ^ d := by positivity
  have h := rhe_mono (mul_le_mul_of_nonneg_right hab (le_of_lt hp))
  exact div_le_div_of_le_of_nonneg (by exact_mod_cast h) (le_of_lt hp)

theorem roundTo_intCast (d : ℕ) (n : ℤ) : roundTo d (n : ℚ) = n := by
  unfold roundTo
  have h : ((n : ℚ)) * 10 ^ d = ((n * 10 ^ d : ℤ) : ℚ) := by push_cast; ring
  rw [h, rhe_intCast]
  push_cast
  field_simp

/-! ## Extended rationals: an exact model of the IEEE-754 values
(finite / +inf / -inf / NaN) that the RSI computation can produce. -/

inductive ERat where
  | fin (q : ℚ)
  | inf
  | ninf
  | nan
deriving DecidableEq

namespace ERat

/-- IEEE addition (signed zeros are irrelevant here and not modelled). -/
def add : ERat → ERat → ERat
  | nan, _ => nan
  | _, nan => nan
  | fin a, fin b => fin (a + b)
  | fin _, inf => inf
  | inf, fin _ => inf
  | fin _, ninf => ninf
  | ninf, fin _ => ninf
  | inf, inf => inf
  | ninf, ninf => ninf
  | inf, ninf => nan
  | ninf, inf => nan

/-- IEEE subtraction. -/
def sub : ERat → ERat → ERat
  | nan, _ => nan
  | _, nan => nan
  | fin a, fin b => fin (a - b)
  | fin _, inf => ninf
  | inf, fin _ => inf
  | fin _, ninf => inf
  | ninf, fin _ => ninf
  | inf, inf => nan
  | ninf, ninf => nan
  | inf, ninf => inf
  | ninf, inf => ninf

/-- IEEE division: `x / 0` is a signed infinity for `x ≠ 0` and NaN for `x = 0`. -/
def div : ERat → ERat → ERat
  | nan, _ => nan
  | _, nan => nan
  | fin a, fin b =>
      if b = 0 then (if 0 < a then inf else if a < 0 then ninf else nan)
      else fin (a / b)
  | fin _, inf => fin 0
  | fin _, ninf => fin 0
  | inf, fin b => if b < 0 then ninf else inf
  | ninf, fin b => if b < 0 then inf else ninf
  | inf, inf => nan
  | inf, ninf => nan
  | ninf, inf => nan
  | ninf, ninf => nan

/-- IEEE `<` as a boolean: any comparison with NaN is `False`. -/
def ltB : ERat → ERat → Bool
  | nan, _ => false
  | _, nan => false
  | fin a, fin b => decide (a < b)
  | fin _, inf => true
  | inf, fin _ => false
  | ninf, fin _ => true
  | fin _, ninf => false
  | inf, inf => false
  | ninf, ninf => false
  | ninf, inf => true
  | inf, ninf => false

/-- IEEE `>` as a boolean. -/
def gtB (a b : ERat) : Bool := ltB b a

/-- Python `round(x, d)` on an IEEE value: NaN stays NaN,
infinities are left unchanged. -/
def roundToE (d : ℕ) : ERat → ERat
  | fin q => fin (roundTo d q)
  | x => x

end ERat

/-! ## Real-valued rounding (for quantities built from square roots) -/

/-- Round-half-to-even on a real number; agrees with `rhe` on rationals. -/
noncomputable def rheR (x : ℝ) : ℤ :=
  if x + 1/2 = ((⌊x + 1/2⌋ : ℤ) : ℝ) ∧ ⌊x + 1/2⌋ % 2 ≠ 0 then ⌊x + 1/2⌋ - 1
  else ⌊x + 1/2⌋

/-- Python `round(x, d)` on a real value. -/
noncomputable def roundToR (d : ℕ) (x : ℝ) : ℝ := (rheR (x * 10 ^ d) : ℝ) / 10 ^ d

theorem rheR_ratCast (q : ℚ) : rheR (q : ℝ) = rhe q := by
  have hfl : ⌊(q : ℝ) + 1/2⌋ = ⌊q + 1/2⌋ := by
    rw [show ((q : ℝ) + 1/2) = ((q + 1/2 : ℚ) : ℝ) by push_cast; ring, Rat.floor_cast]
  have hiff : ((q : ℝ) + 1/2 = ((⌊q + 1/2⌋ : ℤ) : ℝ)) ↔
      q + 1/2 = ((⌊q + 1/2⌋ : ℤ) : ℚ) := by
    rw [show ((q : ℝ) + 1/2) = ((q + 1/2 : ℚ) : ℝ) by push_cast; ring,
      show (((⌊q + 1/2⌋ : ℤ) : ℝ)) = (((⌊q + 1/2⌋ : ℤ) : ℚ) : ℝ) by push_cast; ring]
    exact Rat.cast_injective.eq_iff
  unfold rheR rhe
  rw [hfl]
  simp only [hiff]

theorem roundToR_ratCast (d : ℕ) (q : ℚ) :
    roundToR d (q : ℝ) = ((roundTo d q : ℚ) : ℝ) := by
  unfold roundToR roundTo
  rw [show ((q : ℝ) * 10 ^ d) = ((q * 10 ^ d : ℚ) : ℝ) by push_cast; ring, rheR_ratCast]
  push_cast
  ring

/-! ## List statistics modelling the pandas / numpy operations used -/

/-- Arithmetic mean (`np.mean`, `Series.mean`). -/
def mean (xs : List ℚ) : ℚ := xs.sum / xs.length

/-- The observations a pandas rolling window of size `w` sees at the last
index (the whole list if it is shorter than `w`). -/
def lastWindow (w : ℕ) : List ℚ → List ℚ
  | [] => []
  | x :: xs => if xs.length < w then x :: xs else lastWindow w xs

/-- `series.rolling(window=w).mean().iloc[-1]`: NaN when the series has
fewer than `w` observations. -/
def rollingMeanLast (w : ℕ) (xs : List ℚ) : ERat :=
  if xs.length < w then .nan else .fin ((lastWindow w xs).sum / w)

/-- Mean of the trailing `w`-window as a rational; used only where a length
guard already ensures the window is complete. -/
def meanLast (w : ℕ) (xs : List ℚ) : ℚ := (lastWindow w xs).sum / w

/-- Sample variance (`ddof = 1`), the convention of pandas `.std()` and `np.cov`. -/
def sampleVar (xs : List ℚ) : ℚ :=
  ((xs.map fun x => (x - mean xs) ^ 2).sum) / ((xs.length : ℚ) - 1)

/-- Population variance (`ddof = 0`), the convention of `np.var`. -/
def popVar (xs : List ℚ) : ℚ :=
  ((xs.map fun x => (x - mean xs) ^ 2).sum) / (xs.length : ℚ)

/-- Sample covariance (`ddof = 1`), the convention of `np.cov`. -/
def sampleCov (xs ys : List ℚ) : ℚ :=
  (List.zipWith (fun x y => (x - mean xs) * (y - mean ys)) xs ys).sum
    / ((xs.length : ℚ) - 1)

/-- `df['Close'].diff()`: consecutive differences.  The leading NaN of the
pandas version is not represented here; the RSI code immediately replaces it
by 0 when building the gain and loss series (NaN compares false against 0). -/
def deltas (c : List ℚ) : List ℚ := List.zipWith (· - ·) c.tail c

/-! ## `config.py` -/

namespace Config

def RSI_PERIOD : ℕ := 14
def MACD_FAST : ℕ := 12
def MACD_SLOW : ℕ := 26
def MACD_SIGNAL : ℕ := 9
def MA_SHORT : ℕ := 20
def MA_LONG : ℕ := 60

end Config

/-! ## `services/analysis_service.py` -/

namespace AnalysisService

/-- Gain series of `calculate_rsi`: `delta.where(delta > 0, 0)`; the leading
NaN of `diff()` compares false against 0 and becomes 0. -/
def gains (c : List ℚ) : List ℚ :=
  0 :: ((deltas c).map fun d => if 0 < d then d else 0)

/-- Loss series of `calculate_rsi`: `(-delta.where(delta < 0, 0))`. -/
def losses (c : List ℚ) : List ℚ :=
  0 :: ((deltas c).map fun d => if d < 0 then -d else 0)

/-- `AnalysisService.calculate_rsi(df, period).iloc[-1]`:
`rs = gain/loss; rsi = 100 - 100/(1+rs)` in IEEE arithmetic. -/
def calculate_rsi (period : ℕ) (c : List ℚ) : ERat :=
  let gain := rollingMeanLast period (gains c)
  let loss := rollingMeanLast period (losses c)
  let rs := gain.div loss
  (ERat.fin 100).sub ((ERat.fin 100).div ((ERat.fin 1).add rs))

/-- Tail of `ewm(span, adjust=False).mean()` after seeding:
`v = α x + (1-α) prev`. -/
def emaFrom (a : ℚ) (prev : ℚ) : List ℚ → List ℚ
  | [] => []
  | x :: xs => (a * x + (1 - a) * prev) :: emaFrom a (a * x + (1 - a) * prev) xs

/-- `series.ewm(span=s, adjust=False).mean()`: seeded at the first
observation, recurrence weight `α = 2/(s+1)`. -/
def ema (span : ℕ) : List ℚ → List ℚ
  | [] => []
  | x :: xs => x :: emaFrom (2 / ((span : ℚ) + 1)) x xs

/-- MACD line of `calculate_macd`: `EMA_fast - EMA_slow`. -/
def macdLine (c : List ℚ) : List ℚ :=
  List.zipWith (· - ·) (ema Config.MACD_FAST c) (ema Config.MACD_SLOW c)

/-- Signal line of `calculate_macd`: EMA of the MACD line. -/
def signalLine (c : List ℚ) : List ℚ := ema Config.MACD_SIGNAL (macdLine c)

/-- Histogram of `calculate_macd`: MACD line minus signal line. -/
def histogram (c : List ℚ) : List ℚ :=
  List.zipWith (· - ·) (macdLine c) (signalLine c)

/-- Bollinger middle band at the last bar: 20-bar rolling mean. -/
def bbMiddleLast (c : List ℚ) : ℚ := meanLast 20 c

/-- Sample variance of the trailing 20-bar window (pandas `.std()` squared). -/
def bbVarLast (c : List ℚ) : ℚ := sampleVar (lastWindow 20 c)

/-- `df['Close'].rolling(20).std().iloc[-1]` (sample standard deviation). -/
noncomputable def bbStdLast (c : List ℚ) : ℝ := Real.sqrt (bbVarLast c)

/-- Upper Bollinger band at the last bar: `middle + std * 2`. -/
noncomputable def bbUpperLast (c : List ℚ) : ℝ := (bbMiddleLast c : ℝ) + bbStdLast c * 2

/-- Lower Bollinger band at the last bar: `middle - std * 2`. -/
noncomputable def bbLowerLast (c : List ℚ) : ℝ := (bbMiddleLast c : ℝ) - bbStdLast c * 2

end AnalysisService

/-- The `trend` classification of `get_technical_summary`. -/
inductive Trend where
  | bullish
  | bearish
  | neutral
deriving DecidableEq

/-- The `rsi_status` classification of `get_technical_summary`. -/
inductive RsiStatus where
  | overbought
  | oversold
  | neutral
deriving DecidableEq

/-- The `macd_status` classification of `get_technical_summary`. -/
inductive MacdStatus where
  | bullish
  | bearish
deriving DecidableEq

/-- The dict returned by `get_technical_summary`.  Price-scale and MACD-scale
fields are exact rationals; the RSI can be NaN (flat window) so it is an
`ERat`; the Bollinger bands involve a square root and are reals. -/
structure Summary where
  close : ℚ
  rsi : ERat
  rsiStatus : RsiStatus
  macd : ℚ
  macdSignal : ℚ
  macdHistogram : ℚ
  macdStatus : MacdStatus
  maShort : ℚ
  maLong : ℚ
  trend : Trend
  bbUpper : ℝ
  bbMiddle : ℝ
  bbLower : ℝ

namespace AnalysisService

/-- The body of `get_technical_summary` before the final rounding: latest
value of every indicator plus the three classifications. -/
noncomputable def rawSummary (c : List ℚ) : Summary :=
  let latestClose := c.getLastD 0
  let latestRsi := calculate_rsi Config.RSI_PERIOD c
  let latestMacd := (macdLine c).getLastD 0
  let latestSignal := (signalLine c).getLastD 0
  let maS := meanLast Config.MA_SHORT c
  let maL := meanLast Config.MA_LONG c
  { close := latestClose
    rsi := latestRsi
    rsiStatus :=
      if latestRsi.gtB (.fin 70) then .overbought
      else if latestRsi.ltB (.fin 30) then .oversold
      else .neutral
    macd := latestMacd
    macdSignal := latestSignal
    macdHistogram := (histogram c).getLastD 0
    macdStatus := if latestSignal < latestMacd then .bullish else .bearish
    maShort := maS
    maLong := maL
    trend :=
      if maL < maS ∧ maS < latestClose then .bullish
      else if maS < maL ∧ latestClose < maS then .bearish
      else .neutral
    bbUpper := bbUpperLast c
    bbMiddle := (bbMiddleLast c : ℝ)
    bbLower := bbLowerLast c }

/-- The field-wise rounding applied by the dict literal that
`get_technical_summary` returns: 2 decimals for price-scale values,
4 for MACD-scale values. -/
noncomputable def roundSummary (s : Summary) : Summary :=
  { close := roundTo 2 s.close
    rsi := ERat.roundToE 2 s.rsi
    rsiStatus := s.rsiStatus
    macd := roundTo 4 s.macd
    macdSignal := roundTo 4 s.macdSignal
    macdHistogram := roundTo 4 s.macdHistogram
    macdStatus := s.macdStatus
    maShort := roundTo 2 s.maShort
    maLong := roundTo 2 s.maLong
    trend := s.trend
    bbUpper := roundToR 2 s.bbUpper
    bbMiddle := roundToR 2 s.bbMiddle
    bbLower := roundToR 2 s.bbLower }

/-- `AnalysisService.get_technical_summary`: insufficient data when the
series is shorter than `MA_LONG`, otherwise the rounded summary dict. -/
noncomputable def get_technical_summary (c : List ℚ) : Option Summary :=
  if c.length < Config.MA_LONG then none
  else some (roundSummary (rawSummary c))

end AnalysisService

/-! ## `services/ai_advisor.py` -/

/-- The `recommendation` field of `AIAdvisor.get_recommendation`. -/
inductive Recommendation where
  | buy
  | sell
  | hold
deriving DecidableEq

namespace AIAdvisor

/-- Trend component of `scores`. -/
def trendScore : Trend → ℚ
  | .bullish => 1
  | .bearish => -1
  | .neutral => 0

/-- RSI component of `scores` (NaN falls through every branch to 0). -/
def rsiScore (rsi : ERat) : ℚ :=
  if rsi.ltB (.fin 30) then 1
  else if rsi.gtB (.fin 70) then -1
  else if rsi.ltB (.fin 40) then 1/2
  else if rsi.gtB (.fin 60) then -(1/2)
  else 0

/-- MACD component of `scores`. -/
def macdScore : MacdStatus → ℚ → ℚ
  | .bullish, hist => if 0 < hist then 4/5 else 2/5
  | .bearish, hist => if hist < 0 then -(4/5) else -(2/5)

/-- Price-position component of `scores` (close against the Bollinger bands). -/
noncomputable def pricePositionScore (close : ℚ) (bbUpper bbMiddle bbLower : ℝ) : ℚ :=
  if (close : ℝ) < bbLower then 1
  else if bbUpper < (close : ℝ) then -1
  else if (close : ℝ) < bbMiddle then 3/10
  else -(3/10)

/-- `total_score`: the weighted sum with `RECOMMENDATION_WEIGHTS`
(trend 0.3, rsi 0.25, macd 0.25, price position 0.2). -/
noncomputable def totalScore (s : Summary) : ℚ :=
  trendScore s.trend * (3/10) + rsiScore s.rsi * (1/4)
    + macdScore s.macdStatus s.macdHistogram * (1/4)
    + pricePositionScore s.close s.bbUpper s.bbMiddle s.bbLower * (1/5)

/-- The decision block of `get_recommendation`: recommendation together with
the (pre-rounding) confidence. -/
def recommend (score : ℚ) : Recommendation × ℚ :=
  if 1/2 ≤ score then (.buy, min (|score| * 100) 100)
  else if score ≤ -(1/2) then (.sell, min (|score| * 100) 100)
  else (.hold, (1 - |score|) * 100)

/-- The `confidence` field of the result: rounded to 1 decimal. -/
noncomputable def confidenceOf (s : Summary) : ℚ :=
  roundTo 1 (recommend (totalScore s)).2

/-- Reason sentence contributed by the trend branch. -/
def trendReason : Trend → List String
  | .bullish => ["短期均線在長期均線之上，呈現多頭排列"]
  | .bearish => ["短期均線在長期均線之下，呈現空頭排列"]
  | .neutral => []

/-- Rendering of the RSI value inside a reason sentence (the `:.1f` format;
the exact text is immaterial to the claims). -/
def rsiValText : ERat → String
  | .fin q => toString (roundTo 1 q)
  | .inf => "inf"
  | .ninf => "-inf"
  | .nan => "nan"

/-- Reason sentence contributed by the RSI branch. -/
def rsiReason (st : RsiStatus) (rsi : ERat) : List String :=
  match st with
  | .oversold => ["RSI " ++ rsiValText rsi ++ " 處於超賣區，可能出現反彈"]
  | .overbought => ["RSI " ++ rsiValText rsi ++ " 處於超買區，注意回檔風險"]
  | .neutral => []

/-- Reason sentence contributed by the MACD branch (one in either case). -/
def macdReason : MacdStatus → List String
  | .bullish => ["MACD 呈現黃金交叉，動能轉強"]
  | .bearish => ["MACD 呈現死亡交叉，動能轉弱"]

/-- The `reasons` list: trend reason, then RSI reason, then MACD reason. -/
def reasonsOf (s : Summary) : List String :=
  trendReason s.trend ++ rsiReason s.rsiStatus s.rsi ++ macdReason s.macdStatus

/-- The successful payload of `AIAdvisor.get_recommendation` (metadata
fields such as symbol/name/currency are external and omitted). -/
structure RecommendationResult where
  recommendation : Recommendation
  confidence : ℚ
  score : ℚ
  reasons : List String

/-- `AIAdvisor.get_recommendation` from an already-fetched price series:
errors from `get_technical_summary` propagate as `none`. -/
noncomputable def get_recommendation (c : List ℚ) : Option RecommendationResult :=
  match AnalysisService.get_technical_summary c with
  | none => none
  | some s =>
      some { recommendation := (recommend (totalScore s)).1
             confidence := confidenceOf s
             score := roundTo 2 (totalScore s)
             reasons := reasonsOf s }

end AIAdvisor

/-! ## `services/risk_service.py` -/

/-- `df['Close'].pct_change().dropna()`: per-bar returns, first bar dropped. -/
def pctChange (closes : List ℚ) : List ℚ :=
  List.zipWith (fun cur prev => (cur - prev) / prev) closes.tail closes

/-- Running cumulative product of `1 + r` (`(1 + returns).cumprod()`). -/
def cumprodOnePlus : ℚ → List ℚ → List ℚ
  | _, [] => []
  | acc, r :: rs => (acc * (1 + r)) :: cumprodOnePlus (acc * (1 + r)) rs

/-- `cumulative.expanding(min_periods=1).max()`: running maximum. -/
def runningMax : List ℚ → List ℚ
  | [] => []
  | x :: xs => x :: runningMaxFrom x xs
where
  runningMaxFrom (m : ℚ) : List ℚ → List ℚ
    | [] => []
    | y :: ys => max m y :: runningMaxFrom (max m y) ys

/-- `series.min()` of a nonempty series (callers guard nonemptiness). -/
def listMin : List ℚ → ℚ
  | [] => 0
  | x :: xs => xs.foldl min x

namespace RiskAnalysisService

/-- `RISK_FREE_RATE = 0.05`. -/
def RISK_FREE_RATE : ℚ := 5/100

/-- The successful payload of `calculate_volatility` (the `symbol` field is
external metadata and omitted).  Volatilities involve square roots and live
in `ℝ`; the drawdown fields are exact rationals. -/
structure VolatilityResult where
  dailyVolatility : ℝ
  annualVolatility : ℝ
  maxDrawdown : ℚ
  avgDailyReturn : ℚ
  dataPoints : ℕ

/-- `RiskAnalysisService.calculate_volatility` on an already-fetched close
series: `{'error': ...}` (modelled as `none`) when the frame is empty or has
fewer than 20 bars. -/
noncomputable def calculate_volatility (closes : List ℚ) : Option VolatilityResult :=
  if closes.length < 20 then none
  else
    let returns := pctChange closes
    let dailyVolatility : ℝ := Real.sqrt (sampleVar returns)
    let annualVolatility : ℝ := dailyVolatility * Real.sqrt 252
    let cumulative := cumprodOnePlus 1 returns
    let drawdown := List.zipWith (fun c p => (c - p) / p) cumulative (runningMax cumulative)
    some { dailyVolatility := roundToR 2 (dailyVolatility * 100)
           annualVolatility := roundToR 2 (annualVolatility * 100)
           maxDrawdown := roundTo 2 (listMin drawdown * 100)
           avgDailyReturn := roundTo 4 (mean returns * 100)
           dataPoints := returns.length }

/-- The successful payload of `calculate_sharpe_ratio` (source name kept up
to the trailing word; `symbol` and the interpretation text omitted). -/
structure SharpeResult where
  sharpeValue : ℝ
  annualReturn : ℚ
  annualVolatility : ℝ

/-- `RiskAnalysisService.calculate_sharpe_ratio` on an already-fetched close
series: insufficient data below 20 bars, otherwise
`(annual_return - risk_free) / annual_volatility` with a 0 fallback at zero
volatility. -/
noncomputable def calculate_sharpe (closes : List ℚ) : Option SharpeResult :=
  if closes.length < 20 then none
  else
    let returns := pctChange closes
    let annualReturn : ℚ := mean returns * 252
    let annualVolatility : ℝ := Real.sqrt (sampleVar returns) * Real.sqrt 252
    let sharpe : ℝ :=
      if annualVolatility ≠ 0 then ((annualReturn : ℝ) - (RISK_FREE_RATE : ℝ)) / annualVolatility
      else 0
    some { sharpeValue := roundToR 2 sharpe
           annualReturn := roundTo 2 (annualReturn * 100)
           annualVolatility := roundToR 2 (annualVolatility * 100) }

/-- The successful payload of `calculate_beta`. -/
structure BetaResult where
  beta : ℚ
  correlation : ℝ

/-- `RiskAnalysisService.calculate_beta` on already-fetched close series for
the stock and the market index: empty frames fail, both return series are
truncated to the shorter length (most recent observations kept), fewer than
20 aligned returns fail; beta divides the `np.cov` sample covariance by the
`np.var` population variance (0 if the latter is 0); the correlation is the
`np.corrcoef` entry. -/
noncomputable def calculate_beta (stockCloses marketCloses : List ℚ) : Option BetaResult :=
  if stockCloses = [] ∨ marketCloses = [] then none
  else
    let minLen := min (pctChange stockCloses).length (pctChange marketCloses).length
    let stockReturns := lastWindow minLen (pctChange stockCloses)
    let marketReturns := lastWindow minLen (pctChange marketCloses)
    if stockReturns.length < 20 then none
    else
      let covariance := sampleCov stockReturns marketReturns
      let marketVariance := popVar marketReturns
      let beta := if marketVariance ≠ 0 then covariance / marketVariance else 0
      let correlation : ℝ :=
        (covariance : ℝ)
          / (Real.sqrt (sampleVar stockReturns) * Real.sqrt (sampleVar marketReturns))
      some { beta := roundTo 2 beta, correlation := roundToR 2 correlation }

/-- One entry of the `stock_data` list inside `analyze_portfolio_risk`,
together with the outcomes of the three per-symbol metric calls.  The
current value comes from the external price fetch (`shares * price`); each
metric field holds the rounded value the corresponding call produced, or
`none` when that call returned an `{'error': ...}` dict.  Holdings whose
price fetch raised are skipped by the loop and are not part of this list. -/
structure Holding where
  symbol : String
  value : ℚ
  volData : Option (ℚ × ℚ)
  betaData : Option ℚ
  sharpeData : Option ℚ

/-- `vol_data.get('annual_volatility', 0)`. -/
def Holding.volatilityUsed (h : Holding) : ℚ := (h.volData.map Prod.fst).getD 0

/-- `vol_data.get('max_drawdown', 0)`. -/
def Holding.maxDrawdownUsed (h : Holding) : ℚ := (h.volData.map Prod.snd).getD 0

/-- `beta_data.get('beta', 1)`. -/
def Holding.betaUsed (h : Holding) : ℚ := h.betaData.getD 1

/-- `sharpe_data.get('sharpe_ratio', 0)`. -/
def Holding.sharpeUsed (h : Holding) : ℚ := h.sharpeData.getD 0

/-- One entry of the `risk_metrics` list (`stock_risks` in the report);
exactly the keys the dict literal carries. -/
structure StockRisk where
  symbol : String
  weight : ℚ
  volatility : ℚ
  beta : ℚ
  sharpe : ℚ
  maxDrawdown : ℚ
deriving DecidableEq

/-- The report returned by `analyze_portfolio_risk` (the advisory
`recommendations` strings are omitted). -/
structure PortfolioRiskReport where
  portfolioValue : ℚ
  holdingsCount : ℕ
  portfolioBeta : ℚ
  portfolioVolatility : ℚ
  diversificationScore : ℚ
  riskLevel : String
  stockRisks : List StockRisk

/-- `portfolio_value`: sum of the holdings' current values. -/
def totalValue (hs : List Holding) : ℚ := (hs.map Holding.value).sum

/-- The (unrounded) portfolio weights `value / portfolio_value`. -/
def weightsOf (hs : List Holding) : List ℚ :=
  hs.map fun h => h.value / totalValue hs

/-- The Herfindahl index `sum(weight ** 2)` of `analyze_portfolio_risk`. -/
def hhi (hs : List Holding) : ℚ := ((weightsOf hs).map fun w => w ^ 2).sum

/-- `RiskAnalysisService.analyze_portfolio_risk` after the per-symbol data
has been resolved: errors for an empty holdings list and for a zero
portfolio value; weighted beta/volatility sums use the dict-lookup defaults
(beta 1, volatility 0) for failed per-symbol computations. -/
def analyze_portfolio_risk (hs : List Holding) : Option PortfolioRiskReport :=
  if hs.isEmpty then none
  else
    let pv := totalValue hs
    if pv = 0 then none
    else
      let risks := hs.map fun h =>
        { symbol := h.symbol
          weight := roundTo 1 (h.value / pv * 100)
          volatility := h.volatilityUsed
          beta := h.betaUsed
          sharpe := h.sharpeUsed
          maxDrawdown := h.maxDrawdownUsed : StockRisk }
      let portfolioBeta := roundTo 2 ((hs.map fun h => h.value / pv * h.betaUsed).sum)
      let portfolioVolatility :=
        roundTo 2 ((hs.map fun h => h.value / pv * h.volatilityUsed).sum)
      some { portfolioValue := roundTo 2 pv
             holdingsCount := hs.length
             portfolioBeta := portfolioBeta
             portfolioVolatility := portfolioVolatility
             diversificationScore := roundTo 1 ((1 - hhi hs) * 100)
             riskLevel :=
               if 13/10 < portfolioBeta ∨ 30 < portfolioVolatility then "高風險"
               else if 9/10 < portfolioBeta ∨ 20 < portfolioVolatility then "中等風險"
               else "低風險"
             stockRisks := risks }

end RiskAnalysisService

/-! ## Helper lemmas -/

theorem roundTo_natCast (d : ℕ) (n : ℕ) : roundTo d (n : ℚ) = n := by
  exact_mod_cast roundTo_intCast d n

theorem recommend_confidence_bounds (s : ℚ) :
    50 ≤ (AIAdvisor.recommend s).2 ∧ (AIAdvisor.recommend s).2 ≤ 100 := by
  unfold AIAdvisor.recommend
  split_ifs with h1 h2
  · have habs : |s| = s := abs_of_nonneg (by linarith)
    refine ⟨le_min (by rw [habs]; linarith) (by norm_num), min_le_right _ _⟩
  · have habs : |s| = -s := abs_of_nonpos (by linarith)
    refine ⟨le_min (by rw [habs]; linarith) (by norm_num), min_le_right _ _⟩
  · have habs : |s| < 1/2 := abs_lt.mpr ⟨by linarith, by linarith⟩
    have h0 : 0 ≤ |s| := abs_nonneg s
    constructor <;> simp only <;> nlinarith

/-! ## Claim C6 -/

/-- Claim C6: for every weighted score, `score ≥ 0.5` yields BUY with
confidence `min(|score|*100, 100)`; `score ≤ -0.5` yields SELL with the same
confidence formula; any other score yields HOLD with confidence
`(1-|score|)*100`; the `0.5`/`-0.5` boundaries are inclusive for BUY/SELL. -/
theorem C6_score_thresholds (s : ℚ) :
    (1/2 ≤ s → AIAdvisor.recommend s = (.buy, min (|s| * 100) 100)) ∧
    (s ≤ -(1/2) → AIAdvisor.recommend s = (.sell, min (|s| * 100) 100)) ∧
    (|s| < 1/2 → AIAdvisor.recommend s = (.hold, (1 - |s|) * 100)) := by
  refine ⟨fun h => ?_, fun h => ?_, fun h => ?_⟩
  · unfold AIAdvisor.recommend
    rw [if_pos h]
  · unfold AIAdvisor.recommend
    rw [if_neg (by linarith), if_pos h]
  · obtain ⟨ha, hb⟩ := abs_lt.mp h
    unfold AIAdvisor.recommend
    rw [if_neg (by linarith), if_neg (by linarith)]

/-- Witness for C6 at the boundary scores 0.5, -0.5 and 0.49. -/
theorem C6_score_thresholds_witness :
    AIAdvisor.recommend (1/2) = (.buy, 50) ∧
    AIAdvisor.recommend (-(1/2)) = (.sell, 50) ∧
    AIAdvisor.recommend (49/100) = (.hold, 51) := by
  refine ⟨?_, ?_, ?_⟩
  · rw [(C6_score_thresholds (1/2)).1 (by norm_num)]
    norm_num [abs_of_nonneg, min_def]
  · rw [(C6_score_thresholds (-(1/2))).2.1 (by norm_num)]
    rw [show |(-(1/2) : ℚ)| = 1/2 by rw [abs_neg, abs_of_nonneg] <;> norm_num]
    norm_num [min_def]
  · rw [(C6_score_thresholds (49/100)).2.2 (by rw [abs_of_nonneg] <;> norm_num)]
    rw [show |(49/100 : ℚ)| = 49/100 by rw [abs_of_nonneg]; norm_num]
    norm_num

/-! ## Claim C9 -/

/-- Claim C9: for every successful recommendation result, the reported
confidence lies in [50, 100]: BUY/SELL have `|score| ≥ 0.5` so
`min(|score|*100, 100) ≥ 50`, and HOLD has `|score| < 0.5` so
`(1-|score|)*100 > 50`; this survives the 1-decimal rounding. -/
theorem C9_confidence_range (s : Summary) :
    50 ≤ AIAdvisor.confidenceOf s ∧ AIAdvisor.confidenceOf s ≤ 100 := by
  unfold AIAdvisor.confidenceOf
  obtain ⟨h1, h2⟩ := recommend_confidence_bounds (AIAdvisor.totalScore s)
  have h50 : roundTo 1 (50 : ℚ) = 50 := roundTo_natCast 1 50
  have h100 : roundTo 1 (100 : ℚ) = 100 := roundTo_natCast 1 100
  exact ⟨h50 ▸ roundTo_mono 1 h1, h100 ▸ roundTo_mono 1 h2⟩

/-! ## Claim C10 -/

/-- Claim C10: for every successful recommendation result, the reasons list
is non-empty: a MACD reason is appended in both the bullish and the bearish
branch, so at least one reason is always present. -/
theorem C10_reasons_nonempty (s : Summary) : AIAdvisor.reasonsOf s ≠ [] := by
  unfold AIAdvisor.reasonsOf
  cases h : s.macdStatus <;>
    simp [AIAdvisor.macdReason]

/-! ## Claim C5 -/

/-- Claim C5 (amended): the volatility and sharpe computations fail if and
only if the close series has fewer than 20 bars — equivalently fewer than 19
return observations, since the derived return series drops the first bar.
The source guard counts bars (`len(df) < 20`), not returns. -/
theorem C5_insufficient_data_guard (closes : List ℚ) :
    ((RiskAnalysisService.calculate_volatility closes).isSome ↔ 20 ≤ closes.length) ∧
    ((RiskAnalysisService.calculate_sharpe closes).isSome ↔ 20 ≤ closes.length) ∧
    (closes ≠ [] → (pctChange closes).length = closes.length - 1) := by
  refine ⟨?_, ?_, fun h => ?_⟩
  · unfold RiskAnalysisService.calculate_volatility
    split_ifs with hlt <;> simp <;> omega
  · unfold RiskAnalysisService.calculate_sharpe
    split_ifs with hlt <;> simp <;> omega
  · unfold pctChange
    rw [List.length_zipWith, List.length_tail]
    omega

/-- Witness for C5 at a concrete 25-bar series (24 returns, both succeed)
and the empty series (both fail). -/
theorem C5_insufficient_data_guard_witness :
    (RiskAnalysisService.calculate_volatility (List.replicate 25 (3:ℚ))).isSome = true ∧
    (RiskAnalysisService.calculate_sharpe (List.replicate 25 (3:ℚ))).isSome = true ∧
    (pctChange (List.replicate 25 (3:ℚ))).length = 24 := by
  refine ⟨?_, ?_, ?_⟩
  · exact (C5_insufficient_data_guard (List.replicate 25 3)).1.mpr (by simp)
  · exact (C5_insufficient_data_guard (List.replicate 25 3)).2.1.mpr (by simp)
  · rw [(C5_insufficient_data_guard (List.replicate 25 3)).2.2 (by simp)]
    simp

/-- Counterexample to C5 as stated: a series with exactly 20 bars has only
19 return observations (fewer than 20), yet both computations succeed with
numeric results instead of failing. -/
theorem C5_counterexample :
    (pctChange [(100:ℚ), 101, 102, 103, 104, 105, 106, 107, 108, 109, 110,
        111, 112, 113, 114, 115, 116, 117, 118, 119]).length = 19 ∧
    (19 < 20) ∧
    (RiskAnalysisService.calculate_volatility [(100:ℚ), 101, 102, 103, 104,
        105, 106, 107, 108, 109, 110, 111, 112, 113, 114, 115, 116, 117, 118,
        119]).isSome = true ∧
    (RiskAnalysisService.calculate_sharpe [(100:ℚ), 101, 102, 103, 104, 105,
        106, 107, 108, 109, 110, 111, 112, 113, 114, 115, 116, 117, 118,
        119]).isSome = true := by
  refine ⟨?_, by norm_num, ?_, ?_⟩
  · simp [pctChange]
  · unfold RiskAnalysisService.calculate_volatility
    rw [if_neg (by simp)]
    simp
  · unfold RiskAnalysisService.calculate_sharpe
    rw [if_neg (by simp)]
    simp

/-! ## Claim C1 -/

/-- Claim C1 (amended): when a holding's beta computation fails,
`analyze_portfolio_risk` behaves exactly as if that holding had beta 1 (the
`dict.get` default), with no renormalization of the other weights: the
failed holding contributes `weight × 1` to `portfolio_beta` and still
appears in `stock_risks` with `beta = 1` and no error marker. -/
theorem C1_failed_beta_defaults_to_one (pre post : List RiskAnalysisService.Holding)
    (h : RiskAnalysisService.Holding) :
    RiskAnalysisService.analyze_portfolio_risk (pre ++ { h with betaData := none } :: post)
      = RiskAnalysisService.analyze_portfolio_risk
          (pre ++ { h with betaData := some 1 } :: post) := by
  cases pre <;>
  simp only [RiskAnalysisService.analyze_portfolio_risk, RiskAnalysisService.totalValue,
    RiskAnalysisService.hhi, RiskAnalysisService.weightsOf,
    RiskAnalysisService.Holding.betaUsed, RiskAnalysisService.Holding.volatilityUsed,
    RiskAnalysisService.Holding.sharpeUsed, RiskAnalysisService.Holding.maxDrawdownUsed,
    List.map_append, List.map_cons, List.isEmpty_cons, List.cons_append,
    List.nil_append, List.length_append, List.length_cons, Option.getD_some,
    Option.getD_none]

/-- Counterexample to C1 as stated: a single fully-weighted holding whose
beta computation failed. The claim predicts `portfolio_beta = 0` (weight
times 0) and an error marker in `stock_risks`; the code produces
`portfolio_beta = 1` and a `stock_risks` entry with the defaulted
`beta = 1` and no error field. -/
theorem C1_counterexample :
    (RiskAnalysisService.analyze_portfolio_risk
        [{ symbol := "AAPL", value := 100, volData := some (25, -5),
           betaData := none, sharpeData := some (11/10) }]).map
        RiskAnalysisService.PortfolioRiskReport.portfolioBeta = some 1 ∧
    (RiskAnalysisService.analyze_portfolio_risk
        [{ symbol := "AAPL", value := 100, volData := some (25, -5),
           betaData := none, sharpeData := some (11/10) }]).map
        RiskAnalysisService.PortfolioRiskReport.stockRisks =
      some [{ symbol := "AAPL", weight := 100, volatility := 25, beta := 1,
              sharpe := 11/10, maxDrawdown := -5 }] ∧
    (1 : ℚ) ≠ 0 := by
  have hne : ((100 : ℚ)) ≠ 0 := by norm_num
  have h100 : roundTo 1 (100 : ℚ) = 100 := roundTo_natCast 1 100
  have h1 : roundTo 2 (1 : ℚ) = 1 := roundTo_natCast 2 1
  refine ⟨?_, ?_, by norm_num⟩ <;>
  · unfold RiskAnalysisService.analyze_portfolio_risk
    simp only [List.isEmpty_cons, Bool.false_eq_true, if_false,
      RiskAnalysisService.totalValue, List.map_cons, List.map_nil,
      List.sum_cons, List.sum_nil, RiskAnalysisService.Holding.volatilityUsed,
      RiskAnalysisService.Holding.betaUsed, RiskAnalysisService.Holding.maxDrawdownUsed,
      RiskAnalysisService.Holding.sharpeUsed, Option.map_some, Option.map_none,
      Option.getD_some, Option.getD_none]
    norm_num [h100, h1]

/-! ## Claim C8 -/

/-- Cauchy–Schwarz for a list against the all-ones vector:
`(Σ w)² ≤ n · Σ w²`. -/
theorem list_sq_sum_le (l : List ℚ) :
    (l.sum) ^ 2 ≤ (l.length : ℚ) * ((l.map fun w => w ^ 2).sum) := by
  induction l with
  | nil => simp
  | cons a t ih =>
    simp only [List.sum_cons, List.map_cons, List.length_cons]
    push_cast
    rcases Nat.eq_zero_or_pos t.length with h0 | hpos
    · obtain rfl : t = [] := List.length_eq_zero.mp h0
      simp
    · have hn : (0 : ℚ) < (t.length : ℚ) := by exact_mod_cast hpos
      have key : (t.length : ℚ) * (((t.length : ℚ) + 1) * (a ^ 2 + (t.map fun w => w ^ 2).sum)
            - (a + t.sum) ^ 2)
          = ((t.length : ℚ) * a - t.sum) ^ 2
            + ((t.length : ℚ) + 1)
              * ((t.length : ℚ) * (t.map fun w => w ^ 2).sum - t.sum ^ 2) := by ring
      have hrhs : 0 ≤ ((t.length : ℚ) * a - t.sum) ^ 2
            + ((t.length : ℚ) + 1)
              * ((t.length : ℚ) * (t.map fun w => w ^ 2).sum - t.sum ^ 2) := by
        have h1 : 0 ≤ ((t.length : ℚ) * a - t.sum) ^ 2 := sq_nonneg _
        nlinarith
      nlinarith [mul_pos hn hn, key, hrhs]

/-- Dividing each element of a list by a constant divides the sum. -/
theorem list_map_div_sum (l : List ℚ) (c : ℚ) :
    (l.map fun x => x / c).sum = l.sum / c := by
  induction l with
  | nil => simp
  | cons a t ih => simp [ih, add_div]

/-- Claim C8 (amended): for positive holding values, the Herfindahl index of
the derived weights satisfies `1/n ≤ HHI ≤ 1` (the lower bound is attained at
equal weights, so the interval is closed, not open, at `1/n`), the unrounded
diversification score `(1-HHI)*100` lies in `[0, 100)`, and a single-holding
portfolio has `HHI = 1` and reported `diversification_score = 0.0`. -/
theorem C8_hhi_bounds :
    (∀ hs : List RiskAnalysisService.Holding,
      (∀ h ∈ hs, 0 < h.value) → hs ≠ [] →
      1 / (hs.length : ℚ) ≤ RiskAnalysisService.hhi hs ∧
      RiskAnalysisService.hhi hs ≤ 1 ∧
      0 ≤ (1 - RiskAnalysisService.hhi hs) * 100 ∧
      (1 - RiskAnalysisService.hhi hs) * 100 < 100) ∧
    (∀ h : RiskAnalysisService.Holding, 0 < h.value →
      RiskAnalysisService.hhi [h] = 1 ∧
      (RiskAnalysisService.analyze_portfolio_risk [h]).map
        RiskAnalysisService.PortfolioRiskReport.diversificationScore = some 0) := by
  constructor
  · intro hs hpos hne
    have hpv : 0 < RiskAnalysisService.totalValue hs := by
      refine List.sum_pos _ (fun v hv => ?_) (by simpa using hne)
      obtain ⟨h, hh, rfl⟩ := List.mem_map.mp hv
      exact hpos h hh
    have hws_sum : (RiskAnalysisService.weightsOf hs).sum = 1 := by
      unfold RiskAnalysisService.weightsOf
      rw [show (fun h : RiskAnalysisService.Holding =>
            h.value / RiskAnalysisService.totalValue hs)
          = (fun x => x / RiskAnalysisService.totalValue hs) ∘
            RiskAnalysisService.Holding.value from rfl,
        ← List.map_map, list_map_div_sum]
      exact div_self (ne_of_gt hpv)
    have hmem : ∀ w ∈ RiskAnalysisService.weightsOf hs, 0 < w ∧ w ≤ 1 := by
      intro w hw
      obtain ⟨h, hh, rfl⟩ := List.mem_map.mp hw
      refine ⟨div_pos (hpos h hh) hpv, (div_le_one hpv).mpr ?_⟩
      exact List.single_le_sum
        (fun v hv => by
          obtain ⟨h2, hh2, rfl⟩ := List.mem_map.mp hv
          exact le_of_lt (hpos h2 hh2))
        _ (List.mem_map_of_mem _ hh)
    have hupper : RiskAnalysisService.hhi hs ≤ 1 := by
      unfold RiskAnalysisService.hhi
      calc ((RiskAnalysisService.weightsOf hs).map fun w => w ^ 2).sum
          ≤ ((RiskAnalysisService.weightsOf hs).map id).sum := by
            refine List.sum_le_sum fun w hw => ?_
            obtain ⟨h0, h1⟩ := hmem w hw
            simpa using by nlinarith
        _ = 1 := by rw [List.map_id, hws_sum]
    have hlen : (RiskAnalysisService.weightsOf hs).length = hs.length := by
      simp [RiskAnalysisService.weightsOf]
    have hn : (0 : ℚ) < (hs.length : ℚ) := by
      have := List.length_pos.mpr hne
      exact_mod_cast this
    have hlower : 1 / (hs.length : ℚ) ≤ RiskAnalysisService.hhi hs := by
      have hcs := list_sq_sum_le (RiskAnalysisService.weightsOf hs)
      rw [hws_sum, hlen] at hcs
      rw [div_le_iff hn]
      unfold RiskAnalysisService.hhi
      nlinarith
    have hhi_pos : 0 < RiskAnalysisService.hhi hs := lt_of_lt_of_le (by positivity) hlower
    exact ⟨hlower, hupper, by nlinarith, by nlinarith⟩
  · intro h h0
    have h1 : RiskAnalysisService.hhi [h] = 1 := by
      simp [RiskAnalysisService.hhi, RiskAnalysisService.weightsOf,
        RiskAnalysisService.totalValue, div_self (ne_of_gt h0)]
    refine ⟨h1, ?_⟩
    unfold RiskAnalysisService.analyze_portfolio_risk
    rw [if_neg (by simp)]
    simp only [RiskAnalysisService.totalValue, List.map_cons, List.map_nil,
      List.sum_cons, List.sum_nil, add_zero]
    rw [if_neg (ne_of_gt h0)]
    have hz : roundTo 1 (0 : ℚ) = 0 := by exact_mod_cast roundTo_natCast 1 0
    norm_num [h1, hz]

/-- Witness for C8 at a two-holding portfolio with values 1 and 3 and at a
single holding with value 7. -/
theorem C8_hhi_bounds_witness :
    (1 / 2 : ℚ) ≤ RiskAnalysisService.hhi
      [{ symbol := "A", value := 1, volData := none, betaData := none, sharpeData := none },
       { symbol := "B", value := 3, volData := none, betaData := none, sharpeData := none }] ∧
    RiskAnalysisService.hhi
      [{ symbol := "A", value := 1, volData := none, betaData := none, sharpeData := none },
       { symbol := "B", value := 3, volData := none, betaData := none, sharpeData := none }] ≤ 1 ∧
    RiskAnalysisService.hhi
      [{ symbol := "C", value := 7, volData := none, betaData := none, sharpeData := none }] = 1 ∧
    (RiskAnalysisService.analyze_portfolio_risk
      [{ symbol := "C", value := 7, volData := none, betaData := none, sharpeData := none }]).map
      RiskAnalysisService.PortfolioRiskReport.diversificationScore = some 0 := by
  have hab := C8_hhi_bounds.1
    [{ symbol := "A", value := 1, volData := none, betaData := none, sharpeData := none },
     { symbol := "B", value := 3, volData := none, betaData := none, sharpeData := none }]
    (by intro h hh
        simp only [List.mem_cons, List.not_mem_nil, or_false] at hh
        rcases hh with rfl | rfl <;> norm_num)
    (by simp)
  have hc := C8_hhi_bounds.2
    { symbol := "C", value := 7, volData := none, betaData := none, sharpeData := none }
    (by norm_num)
  refine ⟨?_, hab.2.1, hc.1, hc.2⟩
  have h := hab.1
  norm_num at h
  exact h

/-- Counterexample to C8 as stated: for a single-holding portfolio the claim
asserts `HHI ∈ (1/n, 1]` with `n = 1`, i.e. `1/1 < HHI`; but `HHI = 1`, and
`1 < 1` is false (the interval must be closed at `1/n`). -/
theorem C8_counterexample :
    RiskAnalysisService.hhi
      [{ symbol := "A", value := 5, volData := none, betaData := none, sharpeData := none }] = 1 ∧
    ¬(1 / ((([{ symbol := "A", value := 5, volData := none, betaData := none,
                sharpeData := none }] : List RiskAnalysisService.Holding).length : ℚ))
        < RiskAnalysisService.hhi
          [{ symbol := "A", value := 5, volData := none, betaData := none,
             sharpeData := none }]) := by
  have h1 : RiskAnalysisService.hhi
      [{ symbol := "A", value := 5, volData := none, betaData := none,
         sharpeData := none }] = 1 := by
    norm_num [RiskAnalysisService.hhi, RiskAnalysisService.weightsOf,
      RiskAnalysisService.totalValue]
  refine ⟨h1, ?_⟩
  rw [h1]
  norm_num

/-! ## RSI window lemmas (for claims C3 and C7) -/

theorem lastWindow_sublist (w : ℕ) (xs : List ℚ) : (lastWindow w xs).Sublist xs := by
  induction xs with
  | nil => simp [lastWindow]
  | cons x t ih =>
    rw [lastWindow]
    split_ifs
    · exact List.Sublist.refl _
    · exact ih.trans (List.sublist_cons_self _ _)

theorem lastWindow_length_of_le (w : ℕ) (xs : List ℚ) (h : w ≤ xs.length) :
    (lastWindow w xs).length = w := by
  induction xs with
  | nil => simp only [List.length_nil] at h; simp [lastWindow]; omega
  | cons x t ih =>
    rw [lastWindow]
    split_ifs with hc
    · simp only [List.length_cons] at h ⊢
      omega
    · exact ih (by simp only [List.length_cons] at h; omega)

theorem lastWindow_cons_of_le (w : ℕ) (x : ℚ) (xs : List ℚ) (h : w ≤ xs.length) :
    lastWindow w (x :: xs) = lastWindow w xs := by
  rw [lastWindow, if_neg (by omega)]

theorem length_deltas (c : List ℚ) : (deltas c).length = c.length - 1 := by
  unfold deltas
  rw [List.length_zipWith, List.length_tail]
  omega

theorem deltas_pos_of_chain {c : List ℚ} (h : List.Chain' (· < ·) c) :
    ∀ d ∈ deltas c, 0 < d := by
  induction c with
  | nil => intro d hd; simp [deltas] at hd
  | cons a t ih =>
    cases t with
    | nil => intro d hd; simp [deltas] at hd
    | cons b t2 =>
      intro d hd
      rw [show deltas (a :: b :: t2) = (b - a) :: deltas (b :: t2) from rfl] at hd
      rcases List.mem_cons.mp hd with rfl | hd2
      · have hab := (List.chain'_cons.mp h).1
        linarith
      · exact ih (List.chain'_cons.mp h).2 d hd2

theorem deltas_replicate (n : ℕ) (x : ℚ) :
    deltas (List.replicate n x) = List.replicate (n - 1) 0 := by
  induction n with
  | zero => simp [deltas]
  | succ m ih =>
    cases m with
    | zero => simp [deltas]
    | succ k =>
      have h1 : deltas (List.replicate (k + 2) x)
          = (x - x) :: deltas (List.replicate (k + 1) x) := rfl
      rw [h1, ih]
      simp [List.replicate_succ]

/-- Rolling mean over a complete window of zeros is 0. -/
theorem rollingMeanLast_zero_window {xs : List ℚ} {w : ℕ} (hw : w ≤ xs.length)
    (hwpos : 1 ≤ w) (hz : ∀ y ∈ xs, y = 0) : rollingMeanLast w xs = .fin 0 := by
  unfold rollingMeanLast
  rw [if_neg (by omega)]
  have hs : (lastWindow w xs).sum = 0 :=
    List.sum_eq_zero fun y hy => hz y ((lastWindow_sublist w xs).subset hy)
  rw [hs, zero_div]

/-- Rolling mean over a complete window of positive values is a positive
rational. -/
theorem rollingMeanLast_pos_window {xs : List ℚ} {w : ℕ} (hw : w ≤ xs.length)
    (hwpos : 1 ≤ w) (hp : ∀ y ∈ lastWindow w xs, 0 < y) :
    ∃ g : ℚ, 0 < g ∧ rollingMeanLast w xs = .fin g := by
  refine ⟨(lastWindow w xs).sum / w, ?_, ?_⟩
  · have hne : lastWindow w xs ≠ [] := by
      have hl := lastWindow_length_of_le w xs hw
      intro hnil
      rw [hnil] at hl
      simp at hl
      omega
    exact div_pos (List.sum_pos _ hp hne) (by exact_mod_cast hwpos)
  · unfold rollingMeanLast
    rw [if_neg (by omega)]

/-! ## Claim C3 -/

/-- Claim C3 (amended): for a flat price series (all closes equal) with at
least `period + 1` bars, both the rolling gain and the rolling loss are 0,
so `RS = 0/0` is NaN and the RSI at the latest bar is NaN — not 50.  (The
downstream comparisons then classify the NaN as a neutral RSI status.) -/
theorem C3_flat_rsi_is_nan (n period : ℕ) (x : ℚ) (hp : 1 ≤ period)
    (hn : period + 1 ≤ n) :
    AnalysisService.calculate_rsi period (List.replicate n x) = .nan := by
  have hd := deltas_replicate n x
  have hg : rollingMeanLast period (AnalysisService.gains (List.replicate n x)) = .fin 0 := by
    apply rollingMeanLast_zero_window ?_ hp
    · intro y hy
      rcases List.mem_cons.mp hy with rfl | hy2
      · rfl
      · obtain ⟨d, hdm, rfl⟩ := List.mem_map.mp hy2
        rw [hd] at hdm
        rw [List.eq_of_mem_replicate hdm]
        norm_num
    · simp only [AnalysisService.gains, List.length_cons, List.length_map, hd,
        List.length_replicate]
      omega
  have hl : rollingMeanLast period (AnalysisService.losses (List.replicate n x)) = .fin 0 := by
    apply rollingMeanLast_zero_window ?_ hp
    · intro y hy
      rcases List.mem_cons.mp hy with rfl | hy2
      · rfl
      · obtain ⟨d, hdm, rfl⟩ := List.mem_map.mp hy2
        rw [hd] at hdm
        rw [List.eq_of_mem_replicate hdm]
        norm_num
    · simp only [AnalysisService.losses, List.length_cons, List.length_map, hd,
        List.length_replicate]
      omega
  simp only [AnalysisService.calculate_rsi]
  rw [hg, hl]
  simp [ERat.div, ERat.add, ERat.sub]

/-- Witness for C3 (amended) at a 15-bar flat series at price 100. -/
theorem C3_flat_rsi_is_nan_witness :
    AnalysisService.calculate_rsi 14 (List.replicate 15 (100 : ℚ)) = .nan :=
  C3_flat_rsi_is_nan 15 14 100 (by norm_num) (by norm_num)

/-- Counterexample to C3 as stated: the 15-bar flat series at price 100
yields RSI NaN at the latest bar, not the claimed neutral 50. -/
theorem C3_counterexample :
    AnalysisService.calculate_rsi 14
      [(100 : ℚ), 100, 100, 100, 100, 100, 100, 100, 100, 100, 100, 100, 100,
        100, 100] = .nan ∧
    AnalysisService.calculate_rsi 14
      [(100 : ℚ), 100, 100, 100, 100, 100, 100, 100, 100, 100, 100, 100, 100,
        100, 100] ≠ .fin 50 := by
  have h : AnalysisService.calculate_rsi 14
      [(100 : ℚ), 100, 100, 100, 100, 100, 100, 100, 100, 100, 100, 100, 100,
        100, 100] = .nan := by
    norm_num [AnalysisService.calculate_rsi, AnalysisService.gains,
      AnalysisService.losses, deltas, rollingMeanLast, lastWindow,
      ERat.div, ERat.add, ERat.sub]
  exact ⟨h, by rw [h]; simp⟩

/-! ## Claim C7 -/

/-- Claim C7: for a strictly monotonically increasing close series of at
least `period + 1` bars, the trailing window has loss 0 and gain positive,
so `RS = gain/0 = +inf` and `RSI = 100 - 100/(1 + inf) = 100` exactly. -/
theorem C7_monotone_rsi_100 (c : List ℚ) (period : ℕ) (hp : 1 ≤ period)
    (hlen : period + 1 ≤ c.length) (hmono : List.Chain' (· < ·) c) :
    AnalysisService.calculate_rsi period c = .fin 100 := by
  have hdlen := length_deltas c
  have hl : rollingMeanLast period (AnalysisService.losses c) = .fin 0 := by
    apply rollingMeanLast_zero_window ?_ hp
    · intro y hy
      rcases List.mem_cons.mp hy with rfl | hy2
      · rfl
      · obtain ⟨d, hdm, rfl⟩ := List.mem_map.mp hy2
        rw [if_neg (not_lt.mpr (le_of_lt (deltas_pos_of_chain hmono d hdm)))]
    · simp only [AnalysisService.losses, List.length_cons, List.length_map, hdlen]
      omega
  have hgwin : lastWindow period (AnalysisService.gains c)
      = lastWindow period ((deltas c).map fun d => if 0 < d then d else 0) :=
    lastWindow_cons_of_le _ _ _ (by rw [List.length_map, hdlen]; omega)
  have hgpos : ∀ y ∈ lastWindow period (AnalysisService.gains c), 0 < y := by
    rw [hgwin]
    intro y hy
    obtain ⟨d, hdm, rfl⟩ := List.mem_map.mp ((lastWindow_sublist _ _).subset hy)
    have hdp := deltas_pos_of_chain hmono d hdm
    rwa [if_pos hdp]
  have hglen : period ≤ (AnalysisService.gains c).length := by
    simp only [AnalysisService.gains, List.length_cons, List.length_map, hdlen]
    omega
  obtain ⟨g, hg0, hg⟩ := rollingMeanLast_pos_window hglen hp hgpos
  simp only [AnalysisService.calculate_rsi]
  rw [hg, hl]
  have hdiv : ERat.div (.fin g) (.fin 0) = .inf := by
    simp [ERat.div, hg0]
  rw [hdiv]
  simp [ERat.add, ERat.sub, ERat.div]

/-- Witness for C7 at the strictly increasing 15-bar series 1..15. -/
theorem C7_monotone_rsi_100_witness :
    AnalysisService.calculate_rsi 14
      [(1 : ℚ), 2, 3, 4, 5, 6, 7, 8, 9, 10, 11, 12, 13, 14, 15] = .fin 100 :=
  C7_monotone_rsi_100 _ 14 (by norm_num) (by norm_num)
    (by norm_num [List.chain'_cons])

/-! ## Claim C2 -/

/-- Claim C2, evaluated at the failing input: an instrument measured against
itself over 21 bars (20 non-constant returns).  `np.cov` uses the sample
normalization `n-1` while `np.var` uses the population normalization `n`, so
`beta = cov/var = n/(n-1) = 20/19`, which rounds to 1.05 — not the claimed
1.0.  The correlation half of the claim does hold (exactly 1.0). -/
theorem C2_self_beta_eval :
    RiskAnalysisService.calculate_beta
        [(1 : ℚ), 2, 1, 2, 1, 2, 1, 2, 1, 2, 1, 2, 1, 2, 1, 2, 1, 2, 1, 2, 1]
        [(1 : ℚ), 2, 1, 2, 1, 2, 1, 2, 1, 2, 1, 2, 1, 2, 1, 2, 1, 2, 1, 2, 1]
      = some { beta := 21/20, correlation := 1 } ∧ (21/20 : ℚ) ≠ 1 := by
  have hpc : pctChange [(1 : ℚ), 2, 1, 2, 1, 2, 1, 2, 1, 2, 1, 2, 1, 2, 1, 2, 1, 2, 1, 2, 1]
      = [(1 : ℚ), -(1/2), 1, -(1/2), 1, -(1/2), 1, -(1/2), 1, -(1/2), 1, -(1/2),
         1, -(1/2), 1, -(1/2), 1, -(1/2), 1, -(1/2)] := by
    norm_num [pctChange]
  have hlw : lastWindow 20
      [(1 : ℚ), -(1/2), 1, -(1/2), 1, -(1/2), 1, -(1/2), 1, -(1/2), 1, -(1/2),
       1, -(1/2), 1, -(1/2), 1, -(1/2), 1, -(1/2)]
      = [(1 : ℚ), -(1/2), 1, -(1/2), 1, -(1/2), 1, -(1/2), 1, -(1/2), 1, -(1/2),
         1, -(1/2), 1, -(1/2), 1, -(1/2), 1, -(1/2)] := by
    rw [lastWindow, if_pos (by norm_num)]
  have hmean : mean
      [(1 : ℚ), -(1/2), 1, -(1/2), 1, -(1/2), 1, -(1/2), 1, -(1/2), 1, -(1/2),
       1, -(1/2), 1, -(1/2), 1, -(1/2), 1, -(1/2)] = 1/4 := by
    norm_num [mean]
  have hcov : sampleCov
      [(1 : ℚ), -(1/2), 1, -(1/2), 1, -(1/2), 1, -(1/2), 1, -(1/2), 1, -(1/2),
       1, -(1/2), 1, -(1/2), 1, -(1/2), 1, -(1/2)]
      [(1 : ℚ), -(1/2), 1, -(1/2), 1, -(1/2), 1, -(1/2), 1, -(1/2), 1, -(1/2),
       1, -(1/2), 1, -(1/2), 1, -(1/2), 1, -(1/2)] = 45/76 := by
    norm_num [sampleCov, hmean]
  have hvar : sampleVar
      [(1 : ℚ), -(1/2), 1, -(1/2), 1, -(1/2), 1, -(1/2), 1, -(1/2), 1, -(1/2),
       1, -(1/2), 1, -(1/2), 1, -(1/2), 1, -(1/2)] = 45/76 := by
    norm_num [sampleVar, hmean]
  have hpop : popVar
      [(1 : ℚ), -(1/2), 1, -(1/2), 1, -(1/2), 1, -(1/2), 1, -(1/2), 1, -(1/2),
       1, -(1/2), 1, -(1/2), 1, -(1/2), 1, -(1/2)] = 9/16 := by
    norm_num [popVar, hmean]
  have hround : roundTo 2 ((45/76 : ℚ) / (9/16)) = 21/20 := by
    have h1 : ((45/76 : ℚ) / (9/16)) = 20/19 := by norm_num
    have h2 : rhe ((20/19 : ℚ) * 10 ^ 2) = 105 := by
      apply rhe_eq_of_not_tie _ 105 <;> norm_num
    unfold roundTo
    rw [h1, h2]
    norm_num
  have hcorr : roundToR 2 (((45/76 : ℚ) : ℝ)
      / (Real.sqrt ((45/76 : ℚ) : ℝ) * Real.sqrt ((45/76 : ℚ) : ℝ))) = 1 := by
    rw [Real.mul_self_sqrt (by positivity)]
    rw [div_self (by positivity)]
    rw [show (1 : ℝ) = ((1 : ℚ) : ℝ) by norm_num, roundToR_ratCast]
    have h1 : roundTo 2 (1 : ℚ) = 1 := roundTo_natCast 2 1
    rw [h1]
  refine ⟨?_, by norm_num⟩
  unfold RiskAnalysisService.calculate_beta
  rw [if_neg (by simp)]
  simp only [hpc, List.length_cons, List.length_nil, min_self, hlw]
  rw [if_neg (by norm_num)]
  simp only [hcov, hvar, hpop]
  rw [if_pos (by norm_num)]
  rw [show (45/76 : ℚ) / (9/16) = (45/76 : ℚ) / (9/16) from rfl, hround, hcorr]

/-! ## Claim C4 -/

/-- A 60-bar price series used to exercise the rounding pipeline: 40 bars at
100 followed by 20 bars at 100.001.  The last 20 closes are equal (so the
Bollinger standard deviation is exactly 0 and the last 14 deltas are 0), and
the MACD histogram at the last bar is a tiny negative number whose 4-decimal
rounding is exactly 0. -/
def c4series : List ℚ := List.replicate 40 100 ++ List.replicate 20 (100 + 1/1000)

/-- Claim C4 (amended): the scorer consumes the rounded summary dict, so the
rounding is not purely presentational; the pipeline score equals the score
computed from the unrounded indicator values exactly when the rounding does
not flip any branch predicate of the scorer. -/
theorem C4_score_rounding_agreement (s : Summary)
    (hm1 : 0 < roundTo 4 s.macdHistogram ↔ 0 < s.macdHistogram)
    (hm2 : roundTo 4 s.macdHistogram < 0 ↔ s.macdHistogram < 0)
    (hr1 : (ERat.roundToE 2 s.rsi).ltB (.fin 30) = s.rsi.ltB (.fin 30))
    (hr2 : (ERat.roundToE 2 s.rsi).gtB (.fin 70) = s.rsi.gtB (.fin 70))
    (hr3 : (ERat.roundToE 2 s.rsi).ltB (.fin 40) = s.rsi.ltB (.fin 40))
    (hr4 : (ERat.roundToE 2 s.rsi).gtB (.fin 60) = s.rsi.gtB (.fin 60))
    (hp1 : ((roundTo 2 s.close : ℚ) : ℝ) < roundToR 2 s.bbLower ↔ (s.close : ℝ) < s.bbLower)
    (hp2 : roundToR 2 s.bbUpper < ((roundTo 2 s.close : ℚ) : ℝ) ↔ s.bbUpper < (s.close : ℝ))
    (hp3 : ((roundTo 2 s.close : ℚ) : ℝ) < roundToR 2 s.bbMiddle ↔ (s.close : ℝ) < s.bbMiddle) :
    AIAdvisor.totalScore (AnalysisService.roundSummary s) = AIAdvisor.totalScore s := by
  have ersi : AIAdvisor.rsiScore (ERat.roundToE 2 s.rsi) = AIAdvisor.rsiScore s.rsi := by
    unfold AIAdvisor.rsiScore
    rw [hr1, hr2, hr3, hr4]
  have emacd : AIAdvisor.macdScore s.macdStatus (roundTo 4 s.macdHistogram)
      = AIAdvisor.macdScore s.macdStatus s.macdHistogram := by
    cases hst : s.macdStatus <;> simp only [AIAdvisor.macdScore]
    · exact if_congr hm1 rfl rfl
    · exact if_congr hm2 rfl rfl
  have eprice : AIAdvisor.pricePositionScore (roundTo 2 s.close) (roundToR 2 s.bbUpper)
        (roundToR 2 s.bbMiddle) (roundToR 2 s.bbLower)
      = AIAdvisor.pricePositionScore s.close s.bbUpper s.bbMiddle s.bbLower := by
    unfold AIAdvisor.pricePositionScore
    exact if_congr hp1 rfl (if_congr hp2 rfl (if_congr hp3 rfl rfl))
  simp only [AIAdvisor.totalScore, AnalysisService.roundSummary]
  rw [ersi, emacd, eprice]

/-- Witness for C4 (amended) at a summary whose fields are untouched by
rounding, so no branch flips and the two scores agree. -/
theorem C4_score_rounding_agreement_witness :
    AIAdvisor.totalScore (AnalysisService.roundSummary
      { close := 10, rsi := .fin 50, rsiStatus := .neutral, macd := 1,
         macdSignal := 0, macdHistogram := 1, macdStatus := .bullish,
         maShort := 10, maLong := 10, trend := .neutral,
         bbUpper := ((12 : ℚ) : ℝ), bbMiddle := ((10 : ℚ) : ℝ),
         bbLower := ((8 : ℚ) : ℝ) })
    = AIAdvisor.totalScore
      { close := 10, rsi := .fin 50, rsiStatus := .neutral, macd := 1,
         macdSignal := 0, macdHistogram := 1, macdStatus := .bullish,
         maShort := 10, maLong := 10, trend := .neutral,
         bbUpper := ((12 : ℚ) : ℝ), bbMiddle := ((10 : ℚ) : ℝ),
         bbLower := ((8 : ℚ) : ℝ) } := by
  have h1 : roundTo 4 (1 : ℚ) = 1 := roundTo_natCast 4 1
  have h50 : roundTo 2 (50 : ℚ) = 50 := roundTo_natCast 2 50
  have h10 : roundTo 2 (10 : ℚ) = 10 := roundTo_natCast 2 10
  have h12 : roundToR 2 ((12 : ℚ) : ℝ) = ((12 : ℚ) : ℝ) := by
    rw [roundToR_ratCast]
    exact_mod_cast roundTo_natCast 2 12
  have h10R : roundToR 2 ((10 : ℚ) : ℝ) = ((10 : ℚ) : ℝ) := by
    rw [roundToR_ratCast]
    exact_mod_cast roundTo_natCast 2 10
  have h8 : roundToR 2 ((8 : ℚ) : ℝ) = ((8 : ℚ) : ℝ) := by
    rw [roundToR_ratCast]
    exact_mod_cast roundTo_natCast 2 8
  apply C4_score_rounding_agreement <;>
    simp only [ERat.roundToE, h1, h50, h10, h12, h10R, h8]

set_option maxHeartbeats 8000000 in
set_option maxRecDepth 100000 in
/-- Claim C4, refuted at `c4series`: the full summary exists, but the
pipeline score (computed from the rounded summary, -0.16) differs from the
score computed from the unrounded indicator values (-0.26), because the
4-decimal rounding of the tiny negative MACD histogram moves the MACD score
from the -0.8 branch to the -0.4 branch. -/
theorem C4_counterexample :
    (AnalysisService.get_technical_summary c4series).map AIAdvisor.totalScore
      = some (-(4/25)) ∧
    AIAdvisor.totalScore (AnalysisService.rawSummary c4series) = -(13/50) ∧
    (AnalysisService.get_technical_summary c4series).map AIAdvisor.totalScore
      ≠ some (AIAdvisor.totalScore (AnalysisService.rawSummary c4series)) := by
  have hT : c4series
      = [(100 : ℚ), 100, 100, 100, 100, 100, 100, 100, 100, 100, 100, 100, 100, 100, 100, 100,
       100, 100, 100, 100, 100, 100, 100, 100, 100, 100, 100, 100, 100, 100, 100, 100, 100,
       100, 100, 100, 100, 100, 100, 100, 100 + 1/1000, 100 + 1/1000, 100 + 1/1000,
       100 + 1/1000, 100 + 1/1000, 100 + 1/1000, 100 + 1/1000, 100 + 1/1000, 100 + 1/1000,
       100 + 1/1000, 100 + 1/1000, 100 + 1/1000, 100 + 1/1000, 100 + 1/1000, 100 + 1/1000,
       100 + 1/1000, 100 + 1/1000, 100 + 1/1000, 100 + 1/1000, 100 + 1/1000] := rfl
  have hlen : c4series.length = 60 := by rw [hT]; rfl
  have hclose : c4series.getLastD 0 = 100 + 1/1000 := by rw [hT]; rfl
  have hma20 : meanLast 20 c4series = 100 + 1/1000 := by
    rw [hT]
    norm_num [meanLast, lastWindow]
  have hma60 : meanLast 60 c4series = 300001/3000 := by
    rw [hT]
    norm_num [meanLast, lastWindow]
  have hbbvar : AnalysisService.bbVarLast c4series = 0 := by
    rw [hT]
    norm_num [AnalysisService.bbVarLast, sampleVar, lastWindow, mean]
  have hrsi : AnalysisService.calculate_rsi 14 c4series = .nan := by
    rw [hT]
    norm_num [AnalysisService.calculate_rsi, AnalysisService.gains,
      AnalysisService.losses, deltas, rollingMeanLast, lastWindow,
      ERat.div, ERat.add, ERat.sub]
  have hM : (AnalysisService.macdLine c4series).getLastD 0
      = 18041310886446015171223682294151685620091536469778 / 100705303424465297278238999164650025164864897754000125 := by
    rw [hT]
    norm_num [AnalysisService.macdLine, AnalysisService.ema, AnalysisService.emaFrom,
      Config.MACD_FAST, Config.MACD_SLOW, List.getLastD_cons]
  have hSg : (AnalysisService.signalLine c4series).getLastD 0
      = 2026791932377682209767194684119056750615535717747450129332378664 / 9604006140181092956375026623215677753912439132118237018585205078125 := by
    rw [hT]
    norm_num [AnalysisService.signalLine, AnalysisService.macdLine, AnalysisService.ema,
      AnalysisService.emaFrom, Config.MACD_FAST, Config.MACD_SLOW, Config.MACD_SIGNAL,
      List.getLastD_cons]
  have hH : (AnalysisService.histogram c4series).getLastD 0
      = -(306238449707278236071088508300452699016840299410772578062847414 / 9604006140181092956375026623215677753912439132118237018585205078125) := by
    rw [hT]
    norm_num [AnalysisService.histogram, AnalysisService.signalLine,
      AnalysisService.macdLine, AnalysisService.ema, AnalysisService.emaFrom,
      Config.MACD_FAST, Config.MACD_SLOW, Config.MACD_SIGNAL, List.getLastD_cons]
  have hbbu : AnalysisService.bbUpperLast c4series = ((100 + 1/1000 : ℚ) : ℝ) := by
    unfold AnalysisService.bbUpperLast AnalysisService.bbStdLast
    rw [hbbvar, show AnalysisService.bbMiddleLast c4series = 100 + 1/1000 from hma20]
    simp [Real.sqrt_zero]
  have hbbl : AnalysisService.bbLowerLast c4series = ((100 + 1/1000 : ℚ) : ℝ) := by
    unfold AnalysisService.bbLowerLast AnalysisService.bbStdLast
    rw [hbbvar, show AnalysisService.bbMiddleLast c4series = 100 + 1/1000 from hma20]
    simp [Real.sqrt_zero]
  have hSproj : AnalysisService.rawSummary c4series =
      { close := 100 + 1/1000, rsi := .nan, rsiStatus := .neutral,
         macd := 18041310886446015171223682294151685620091536469778 / 100705303424465297278238999164650025164864897754000125,
         macdSignal := 2026791932377682209767194684119056750615535717747450129332378664 / 9604006140181092956375026623215677753912439132118237018585205078125,
         macdHistogram := -(306238449707278236071088508300452699016840299410772578062847414 / 9604006140181092956375026623215677753912439132118237018585205078125),
         macdStatus := .bearish, maShort := 100 + 1/1000, maLong := 300001/3000,
         trend := .neutral, bbUpper := ((100 + 1/1000 : ℚ) : ℝ),
         bbMiddle := ((100 + 1/1000 : ℚ) : ℝ),
         bbLower := ((100 + 1/1000 : ℚ) : ℝ) } := by
    simp only [AnalysisService.rawSummary, AnalysisService.bbMiddleLast,
      Config.RSI_PERIOD, Config.MA_SHORT, Config.MA_LONG]
    simp only [hclose, hrsi, hma20, hma60, hM, hSg, hH, hbbu, hbbl]
    simp only [ERat.gtB, ERat.ltB]
    norm_num
  have hH4 : roundTo 4 (-(306238449707278236071088508300452699016840299410772578062847414 / 9604006140181092956375026623215677753912439132118237018585205078125) : ℚ) = 0 := by
    unfold roundTo
    rw [show rhe ((-(306238449707278236071088508300452699016840299410772578062847414 / 9604006140181092956375026623215677753912439132118237018585205078125) : ℚ) * 10 ^ 4) = 0 from
      rhe_eq_of_not_tie _ 0 (by norm_num) (by norm_num) (by norm_num)]
    norm_num
  have hc2 : roundTo 2 (100 + 1/1000 : ℚ) = 100 := by
    unfold roundTo
    rw [show rhe ((100 + 1/1000 : ℚ) * 10 ^ 2) = 10000 from
      rhe_eq_of_not_tie _ 10000 (by norm_num) (by norm_num) (by norm_num)]
    norm_num
  have hraw : AIAdvisor.totalScore (AnalysisService.rawSummary c4series) = -(13/50) := by
    rw [hSproj]
    simp only [AIAdvisor.totalScore, AIAdvisor.trendScore, AIAdvisor.rsiScore,
      AIAdvisor.macdScore, AIAdvisor.pricePositionScore, ERat.ltB, ERat.gtB]
    rw [if_pos (show (-(306238449707278236071088508300452699016840299410772578062847414 / 9604006140181092956375026623215677753912439132118237018585205078125) : ℚ) < 0 by norm_num)]
    rw [if_neg (lt_irrefl ((100 + 1/1000 : ℚ) : ℝ)), if_neg (lt_irrefl ((100 + 1/1000 : ℚ) : ℝ)),
      if_neg (lt_irrefl ((100 + 1/1000 : ℚ) : ℝ))]
    norm_num
  have hround : AIAdvisor.totalScore (AnalysisService.roundSummary
      (AnalysisService.rawSummary c4series)) = -(4/25) := by
    rw [hSproj]
    simp only [AnalysisService.roundSummary, AIAdvisor.totalScore, AIAdvisor.trendScore,
      AIAdvisor.rsiScore, AIAdvisor.macdScore, AIAdvisor.pricePositionScore,
      ERat.roundToE, ERat.ltB, ERat.gtB, roundToR_ratCast, hH4, hc2]
    rw [if_neg (show ¬((0 : ℚ) < 0) by norm_num)]
    rw [if_neg (lt_irrefl ((100 : ℚ) : ℝ)), if_neg (lt_irrefl ((100 : ℚ) : ℝ)),
      if_neg (lt_irrefl ((100 : ℚ) : ℝ))]
    norm_num
  have hpipe : AnalysisService.get_technical_summary c4series
      = some (AnalysisService.roundSummary (AnalysisService.rawSummary c4series)) := by
    unfold AnalysisService.get_technical_summary
    rw [if_neg (by rw [hlen]; norm_num [Config.MA_LONG])]
  refine ⟨?_, hraw, ?_⟩
  · rw [hpipe, Option.map_some', hround]
  · rw [hpipe, Option.map_some', hround, hraw]
    intro hcontra
    rw [Option.some.injEq] at hcontra
    norm_num at hcontra

end Fine
